import Mathlib

/-!
Verification of the WatchParty client's signaling and peer-connection
orchestration layer, shallowly embedded from `frontend/src/App.js`.

The React component keeps its state in `useState` hooks (`participants`,
`localStream`, `remoteStreams`, `peerConnections`, `isVideoEnabled`,
`isAudioEnabled`, `isScreenSharing`, `isInRoom`).  Here that state is a
record `AppState`, JavaScript objects keyed by participant id are
association lists over `String`, and each socket handler or UI action is a
pure function from state (plus external inputs such as acquired media
streams) to a new state together with the list of events emitted on the
signaling socket.  Media acquisition (`getUserMedia`, `getDisplayMedia`)
is an input parameter: `some stream` when the browser grants the device,
`none` when the request is rejected.  The WebRTC peer-connection object is
modelled by the fields the code touches: the local and remote session
descriptions, the track senders, and the list of ICE candidates that have
been applied with `addIceCandidate`.
-/

/-- A media track as the code observes it: its `kind` (`"video"` or
`"audio"`), its mutable `enabled` flag, and a numeric identity `tid`
distinguishing, e.g., the camera's video track from the screen capture's. -/
structure MediaStreamTrack where
  kind : String
  enabled : Bool
  tid : Nat
  deriving DecidableEq

/-- A media stream is its list of tracks (camera: video + audio;
screen capture: video and possibly system audio). -/
structure MediaStream where
  tracks : List MediaStreamTrack
  deriving DecidableEq

/-- A session description: its type string (`"offer"` / `"answer"`) and an
abstract SDP payload. -/
structure SessionDescription where
  sdpType : String
  sdp : Nat
  deriving DecidableEq

/-- An ICE candidate, abstracted to an identifier. -/
abbrev Candidate := Nat

/-- An RTP sender inside a peer connection, holding the track currently
being sent (or none after `replaceTrack(undefined)`). -/
structure RTPSender where
  track : Option MediaStreamTrack
  deriving DecidableEq

/-- The slice of an `RTCPeerConnection` that `App.js` reads or writes:
descriptions, senders, the candidates successfully applied via
`addIceCandidate`, and whether `close()` was called. -/
structure RTCPeerConnection where
  localDescription : Option SessionDescription
  remoteDescription : Option SessionDescription
  senders : List RTPSender
  appliedCandidates : List Candidate
  connClosed : Bool
  deriving DecidableEq

/-- A remote participant entry, as stored in the `participants` map
(`{ name, video_enabled, audio_enabled }`). -/
structure Participant where
  name : String
  video_enabled : Bool
  audio_enabled : Bool
  deriving DecidableEq

/-- Events the client emits on the signaling socket (`socket.emit`). -/
inductive ClientEvent where
  | webrtcOffer (targetId : String) (offer : SessionDescription)
  | webrtcAnswer (targetId : String) (answer : SessionDescription)
  | webrtcIceCandidate (targetId : String) (candidate : Candidate)
  | toggleVideoEvt (enabled : Bool)
  | toggleAudioEvt (enabled : Bool)
  | startScreenShareEvt
  | stopScreenShareEvt
  deriving DecidableEq

/-- The component state of `App.js` relevant to signaling and peer-link
orchestration. -/
structure AppState where
  isInRoom : Bool
  participants : List (String × Participant)
  localStream : Option MediaStream
  remoteStreams : List (String × Nat)
  peerConnections : List (String × RTCPeerConnection)
  isVideoEnabled : Bool
  isAudioEnabled : Bool
  isScreenSharing : Bool
  deriving DecidableEq

/-- Lookup in a JavaScript-object-style association list (`obj[key]`). -/
def lookupA {α : Type} : List (String × α) → String → Option α
  | [], _ => none
  | p :: rest, k => if p.1 = k then some p.2 else lookupA rest k

/-- Key membership in an association list (`key in obj`). -/
def containsKey {α : Type} (l : List (String × α)) (k : String) : Bool :=
  (lookupA l k).isSome

/-- Key deletion (`delete obj[key]`). -/
def eraseA {α : Type} : List (String × α) → String → List (String × α)
  | [], _ => []
  | p :: rest, k => if p.1 = k then eraseA rest k else p :: eraseA rest k

/-- Key insertion / overwrite (`{ ...obj, [key]: v }`). -/
def insertA {α : Type} (l : List (String × α)) (k : String) (v : α) : List (String × α) :=
  (k, v) :: eraseA l k

/-- In-place mutation of the value stored under `k` (the handlers mutate
the `RTCPeerConnection` object held in the map without re-setting state). -/
def updateA {α : Type} (l : List (String × α)) (k : String) (f : α → α) : List (String × α) :=
  l.map (fun p => if p.1 = k then (p.1, f p.2) else p)

/-- In-place mutation of every stored value (`Object.values(...).forEach`). -/
def mapValuesA {α : Type} (l : List (String × α)) (f : α → α) : List (String × α) :=
  l.map (fun p => (p.1, f p.2))

/-- `stream.getVideoTracks()[0]` / `stream.getAudioTracks()[0]`: the first
track of the given kind. -/
def firstTrackOfKind : List MediaStreamTrack → String → Option MediaStreamTrack
  | [], _ => none
  | t :: rest, k => if t.kind = k then some t else firstTrackOfKind rest k

/-- Mutating `track.enabled = e` on the first track of the given kind. -/
def setEnabledFirst : List MediaStreamTrack → String → Bool → List MediaStreamTrack
  | [], _, _ => []
  | t :: rest, k, e =>
      if t.kind = k then { t with enabled := e } :: rest
      else t :: setEnabledFirst rest k e

/-- The track held by the first sender whose current track has the given
kind (`pc.getSenders().find(s => s.track && s.track.kind === k)`). -/
def firstSenderTrackOfKind (k : String) : List RTPSender → Option MediaStreamTrack
  | [] => none
  | sd :: rest =>
      match sd.track with
      | some t => if t.kind = k then some t else firstSenderTrackOfKind k rest
      | none => firstSenderTrackOfKind k rest

/-- Whether some sender currently carries a track of the given kind. -/
def hasSenderOfKind (k : String) (sl : List RTPSender) : Bool :=
  (firstSenderTrackOfKind k sl).isSome

/-- `sender.replaceTrack(newTrack)` applied to the first sender found with
a current track of kind `k`; a no-op when no such sender exists
(`if (sender) ...`). -/
def replaceSenderTrack (k : String) (newTrack : Option MediaStreamTrack) :
    List RTPSender → List RTPSender
  | [] => []
  | sd :: rest =>
      match sd.track with
      | some t =>
          if t.kind = k then { track := newTrack } :: rest
          else sd :: replaceSenderTrack k newTrack rest
      | none => sd :: replaceSenderTrack k newTrack rest

/-- The kind of an optional track. -/
def optTrackKind : Option MediaStreamTrack → Option String
  | some t => some t.kind
  | none => none

/-- The WebRTC `addIceCandidate` API: the candidate is applied (appended to
the applied list, preserving arrival order) when a remote description has
been set, and rejected (`InvalidStateError`, the flag `false`) when none
has; `App.js` maintains no candidate queue of its own, so a rejected
candidate is simply lost. -/
def RTCPeerConnection.addIceCandidate (pc : RTCPeerConnection) (c : Candidate) :
    RTCPeerConnection × Bool :=
  match pc.remoteDescription with
  | some _ => ({ pc with appliedCandidates := pc.appliedCandidates ++ [c] }, true)
  | none => (pc, false)

/-- The offer built by `pc.createOffer()`. -/
def createOfferSdp : SessionDescription :=
  { sdpType := "offer", sdp := 0 }

/-- The answer built by `pc.createAnswer()`. -/
def createAnswerSdp : SessionDescription :=
  { sdpType := "answer", sdp := 0 }

/-- `new RTCPeerConnection(rtcConfig)` followed by `pc.addTrack(track)` for
every track of the current local stream (App.js lines 152-160): one sender
per local track, no descriptions, no candidates applied. -/
def newRTCPeerConnection (localStream : Option MediaStream) : RTCPeerConnection :=
  { localDescription := none,
    remoteDescription := none,
    senders :=
      match localStream with
      | some stream => stream.tracks.map (fun t => { track := some t })
      | none => [],
    appliedCandidates := [],
    connClosed := false }

/-- The caller-side peer connection right after `createPeerConnection(id,
true)`: the freshly built offer has been set as the local description. -/
def callerPC (localStream : Option MediaStream) : RTCPeerConnection :=
  { newRTCPeerConnection localStream with localDescription := some createOfferSdp }

/-- `createPeerConnection(participantId, shouldCreateOffer)` (App.js lines
152-202): build the connection with the local tracks attached and store it
under the participant id; when `shouldCreateOffer` is true additionally
create an offer, set it locally and emit `webrtc_offer` addressed to the
participant; otherwise emit nothing and wait for the remote offer. -/
def createPeerConnection (s : AppState) (participantId : String) (shouldCreateOffer : Bool) :
    AppState × List ClientEvent :=
  if shouldCreateOffer then
    ({ s with peerConnections :=
        insertA s.peerConnections participantId (callerPC s.localStream) },
     [ClientEvent.webrtcOffer participantId createOfferSdp])
  else
    ({ s with peerConnections :=
        insertA s.peerConnections participantId (newRTCPeerConnection s.localStream) },
     [])

/-- `Object.keys(data.participants).forEach(id => createPeerConnection(id,
true))` (App.js lines 71-73), threading the state and accumulating emitted
events. -/
def createForAll : AppState × List ClientEvent → List (String × Participant) →
    AppState × List ClientEvent
  | acc, [] => acc
  | acc, p :: rest =>
      let r := createPeerConnection acc.1 p.1 true
      createForAll (r.1, acc.2 ++ r.2) rest

/-- `startLocalMedia()` (App.js lines 134-150): on success the acquired
stream becomes `localStream`; on rejection the error is only logged
(`console.error`) and the state is left untouched. -/
def startLocalMedia (s : AppState) (acquired : Option MediaStream) : AppState :=
  match acquired with
  | some stream => { s with localStream := some stream }
  | none => s

/-- The `room_joined` handler (App.js lines 62-74): mark the room as
joined, replace the participant map with the server's map, run
`startLocalMedia` (with `media` the acquisition result), then create a
caller-role peer connection per existing participant id. -/
def onRoomJoined (s : AppState) (parts : List (String × Participant))
    (media : Option MediaStream) : AppState × List ClientEvent :=
  let s1 := { s with isInRoom := true, participants := parts }
  createForAll (startLocalMedia s1 media, []) parts

/-- The `user_joined` handler (App.js lines 76-85): record the newcomer
with both toggles on and create a callee-role peer connection for them
(`createPeerConnection(id, false)` — they will send the offer). -/
def onUserJoined (s : AppState) (userId userName : String) : AppState × List ClientEvent :=
  let entry : Participant := { name := userName, video_enabled := true, audio_enabled := true }
  let s1 := { s with participants := insertA s.participants userId entry }
  createPeerConnection s1 userId false

/-- `cleanupPeerConnection(participantId)` (App.js lines 233-249): when a
connection exists for the id, close it and delete its map entry; in every
case delete the id's remote stream entry. -/
def cleanupPeerConnection (s : AppState) (participantId : String) : AppState :=
  let s1 :=
    match lookupA s.peerConnections participantId with
    | some _ => { s with peerConnections := eraseA s.peerConnections participantId }
    | none => s
  { s1 with remoteStreams := eraseA s1.remoteStreams participantId }

/-- The `user_left` handler (App.js lines 87-97): drop the participant
entry, then tear down their peer connection. -/
def onUserLeft (s : AppState) (userId : String) : AppState :=
  cleanupPeerConnection
    { s with participants := eraseA s.participants userId } userId

/-- `handleOffer(fromId, offer)` (App.js lines 204-217): when a peer
connection exists for `fromId`, set the offer as its remote description,
build an answer, set it locally and emit `webrtc_answer` back to the
offerer; when no connection exists, do nothing at all. -/
def handleOffer (s : AppState) (fromId : String) (offer : SessionDescription) :
    AppState × List ClientEvent :=
  match lookupA s.peerConnections fromId with
  | some _ =>
      let pcs :=
        updateA s.peerConnections fromId
          (fun pc =>
            { pc with
                remoteDescription := some offer,
                localDescription := some createAnswerSdp })
      ({ s with peerConnections := pcs },
       [ClientEvent.webrtcAnswer fromId createAnswerSdp])
  | none => (s, [])

/-- `handleAnswer(fromId, answer)` (App.js lines 219-224): when a peer
connection exists for `fromId`, set the answer as its remote description;
otherwise do nothing. -/
def handleAnswer (s : AppState) (fromId : String) (answer : SessionDescription) :
    AppState × List ClientEvent :=
  match lookupA s.peerConnections fromId with
  | some _ =>
      let pcs :=
        updateA s.peerConnections fromId
          (fun pc => { pc with remoteDescription := some answer })
      ({ s with peerConnections := pcs }, [])
  | none => (s, [])

/-- `handleIceCandidate(fromId, candidate)` (App.js lines 226-231): when a
peer connection exists for `fromId`, forward the candidate to
`addIceCandidate` at once — there is no pending-candidate queue; when none
exists, do nothing.  The boolean is `true` when no error was raised. -/
def handleIceCandidate (s : AppState) (fromId : String) (c : Candidate) :
    AppState × List ClientEvent × Bool :=
  match lookupA s.peerConnections fromId with
  | some pc =>
      let r := pc.addIceCandidate c
      ({ s with peerConnections := updateA s.peerConnections fromId (fun _ => r.1) },
       [], r.2)
  | none => (s, [], true)

/-- The `pc.ontrack` handler (App.js lines 163-175): store the remote
stream under the sending participant's id. -/
def onRemoteTrack (s : AppState) (participantId : String) (remoteStream : Nat) : AppState :=
  { s with remoteStreams := insertA s.remoteStreams participantId remoteStream }

/-- `toggleVideo()` (App.js lines 278-288): when a local stream with a
video track exists, set that track's `enabled` to the negation of
`isVideoEnabled`, update the flag, and emit a single `toggle_video`
event; otherwise do nothing. -/
def toggleVideo (s : AppState) : AppState × List ClientEvent :=
  match s.localStream with
  | none => (s, [])
  | some stream =>
      match firstTrackOfKind stream.tracks "video" with
      | none => (s, [])
      | some _ =>
          ({ s with
              localStream :=
                some { tracks := setEnabledFirst stream.tracks "video" (! s.isVideoEnabled) },
              isVideoEnabled := ! s.isVideoEnabled },
           [ClientEvent.toggleVideoEvt (! s.isVideoEnabled)])

/-- `toggleAudio()` (App.js lines 290-300): the audio counterpart of
`toggleVideo`. -/
def toggleAudio (s : AppState) : AppState × List ClientEvent :=
  match s.localStream with
  | none => (s, [])
  | some stream =>
      match firstTrackOfKind stream.tracks "audio" with
      | none => (s, [])
      | some _ =>
          ({ s with
              localStream :=
                some { tracks := setEnabledFirst stream.tracks "audio" (! s.isAudioEnabled) },
              isAudioEnabled := ! s.isAudioEnabled },
           [ClientEvent.toggleAudioEvt (! s.isAudioEnabled)])

/-- The per-connection replacement performed by `startScreenShare`: replace
the first video sender's track with the screen video track, and — only
when the screen capture produced an audio track — replace the first audio
sender's track as well (App.js lines 313-329). -/
def replaceTracksStart (vt au : Option MediaStreamTrack) (pc : RTCPeerConnection) :
    RTCPeerConnection :=
  let s1 := replaceSenderTrack "video" vt pc.senders
  let s2 :=
    match au with
    | some t => replaceSenderTrack "audio" (some t) s1
    | none => s1
  { pc with senders := s2 }

/-- `startScreenShare()` (App.js lines 302-347): on successful
`getDisplayMedia`, swap the screen tracks into every peer connection via
`replaceTrack`, mark screen sharing, and emit `start_screen_share`; the
`localStream` state is never written.  On rejection the error is only
logged and nothing changes. -/
def startScreenShare (s : AppState) (acquired : Option MediaStream) :
    AppState × List ClientEvent :=
  match acquired with
  | none => (s, [])
  | some screenStream =>
      let vt := firstTrackOfKind screenStream.tracks "video"
      let au := firstTrackOfKind screenStream.tracks "audio"
      ({ s with
          peerConnections := mapValuesA s.peerConnections (replaceTracksStart vt au),
          isScreenSharing := true },
       [ClientEvent.startScreenShareEvt])

/-- The per-connection replacement performed by `stopScreenShare`: replace
the first video sender's track and the first audio sender's track with the
camera's tracks (App.js lines 361-375; the audio replacement is not
guarded on the track's existence here). -/
def replaceTracksStop (vt au : Option MediaStreamTrack) (pc : RTCPeerConnection) :
    RTCPeerConnection :=
  let s1 := replaceSenderTrack "video" vt pc.senders
  let s2 := replaceSenderTrack "audio" au s1
  { pc with senders := s2 }

/-- `stopScreenShare()` (App.js lines 349-389): on successful
`getUserMedia`, swap the camera tracks back into every peer connection via
`replaceTrack`, set `localStream` to the new camera stream, clear the
screen-sharing flag, and emit `stop_screen_share`; on rejection nothing
changes. -/
def stopScreenShare (s : AppState) (acquired : Option MediaStream) :
    AppState × List ClientEvent :=
  match acquired with
  | none => (s, [])
  | some cameraStream =>
      let vt := firstTrackOfKind cameraStream.tracks "video"
      let au := firstTrackOfKind cameraStream.tracks "audio"
      ({ s with
          peerConnections := mapValuesA s.peerConnections (replaceTracksStop vt au),
          localStream := some cameraStream,
          isScreenSharing := false },
       [ClientEvent.stopScreenShareEvt])

/-- Inbound signaling events, each carrying the environment inputs its
handler consumes (for `room_joined`, the media-acquisition result). -/
inductive ServerEvent where
  | roomJoined (parts : List (String × Participant)) (media : Option MediaStream)
  | userJoined (userId userName : String)
  | userLeft (userId : String)
  | offerReceived (fromId : String) (offer : SessionDescription)
  | answerReceived (fromId : String) (answer : SessionDescription)
  | candidateReceived (fromId : String) (candidate : Candidate)
  deriving DecidableEq

/-- Dispatch of one inbound event to its handler (App.js lines 62-112). -/
def applyEvent (s : AppState) (e : ServerEvent) : AppState × List ClientEvent :=
  match e with
  | .roomJoined parts media => onRoomJoined s parts media
  | .userJoined uid uname => onUserJoined s uid uname
  | .userLeft uid => (onUserLeft s uid, [])
  | .offerReceived fid off => handleOffer s fid off
  | .answerReceived fid ans => handleAnswer s fid ans
  | .candidateReceived fid c =>
      let r := handleIceCandidate s fid c
      (r.1, r.2.1)

/-- Sequential processing of a list of inbound events (the client is a
single logical actor; handlers run in arrival order). -/
def processEvents : AppState → List ServerEvent → AppState
  | s, [] => s
  | s, e :: rest => processEvents (applyEvent s e).1 rest

/-- Whether an event is one of the room-membership events
`user_joined` / `user_left`. -/
def isMembershipEvent : ServerEvent → Bool
  | .userJoined _ _ => true
  | .userLeft _ => true
  | _ => false

/-- The ids with an active peer connection coincide with the known remote
participant ids. -/
def sameDomain (s : AppState) : Prop :=
  ∀ id, containsKey s.participants id = containsKey s.peerConnections id

/-- The component's initial state (App.js lines 28-35). -/
def initState : AppState :=
  { isInRoom := false,
    participants := [],
    localStream := none,
    remoteStreams := [],
    peerConnections := [],
    isVideoEnabled := true,
    isAudioEnabled := true,
    isScreenSharing := false }

/-! ### Association-list lemmas -/

theorem lookupA_insertA_self {α : Type} (l : List (String × α)) (k : String) (v : α) :
    lookupA (insertA l k v) k = some v := by
  simp [insertA, lookupA]

theorem lookupA_eraseA_ne {α : Type} (l : List (String × α)) (k id : String) (h : k ≠ id) :
    lookupA (eraseA l k) id = lookupA l id := by
  induction l with
  | nil => rfl
  | cons p rest ih =>
      by_cases hp : p.1 = k
      · have hpid : p.1 ≠ id := by rw [hp]; exact h
        simp [eraseA, lookupA, hp, hpid, ih, h]
      · simp [eraseA, lookupA, hp, ih]

theorem lookupA_eraseA_self {α : Type} (l : List (String × α)) (k : String) :
    lookupA (eraseA l k) k = none := by
  induction l with
  | nil => rfl
  | cons p rest ih =>
      by_cases hp : p.1 = k
      · simp [eraseA, hp, ih]
      · simp [eraseA, lookupA, hp, ih]

theorem lookupA_insertA_ne {α : Type} (l : List (String × α)) (k id : String) (v : α)
    (h : k ≠ id) : lookupA (insertA l k v) id = lookupA l id := by
  simp [insertA, lookupA, h, lookupA_eraseA_ne l k id h]

theorem eraseA_eraseA {α : Type} (l : List (String × α)) (k : String) :
    eraseA (eraseA l k) k = eraseA l k := by
  induction l with
  | nil => rfl
  | cons p rest ih =>
      by_cases hp : p.1 = k
      · simp [eraseA, hp, ih]
      · simp [eraseA, hp, ih]

theorem lookupA_updateA {α : Type} (l : List (String × α)) (k id : String) (f : α → α) :
    lookupA (updateA l k f) id =
      if k = id then (lookupA l id).map f else lookupA l id := by
  induction l with
  | nil => by_cases hk : k = id <;> simp [updateA, lookupA, hk]
  | cons p rest ih =>
      simp only [updateA] at ih ⊢
      by_cases hp : p.1 = k
      · by_cases hk : k = id
        · subst hk; simp [lookupA, hp, ih]
        · have hpid : ¬ p.1 = id := by rw [hp]; exact hk
          simp [lookupA, hp, hpid, hk, ih]
      · by_cases hpid : p.1 = id
        · have hk : ¬ k = id := fun he => hp (by rw [he, hpid])
          have hik : ¬ id = k := fun he => hk he.symm
          simp [lookupA, hp, hpid, hk, hik]
        · simp [lookupA, hp, hpid, ih]

theorem lookupA_updateA_self {α : Type} (l : List (String × α)) (k : String) (f : α → α) :
    lookupA (updateA l k f) k = (lookupA l k).map f := by
  simp [lookupA_updateA]

theorem lookupA_mapValuesA {α : Type} (l : List (String × α)) (f : α → α) (k : String) :
    lookupA (mapValuesA l f) k = (lookupA l k).map f := by
  induction l with
  | nil => simp [mapValuesA, lookupA]
  | cons p rest ih =>
      simp only [mapValuesA] at ih ⊢
      by_cases hp : p.1 = k
      · simp [lookupA, hp]
      · simp [lookupA, hp, ih]

theorem containsKey_nil {α : Type} (k : String) :
    containsKey ([] : List (String × α)) k = false := rfl

theorem containsKey_cons {α : Type} (p : String × α) (rest : List (String × α)) (id : String) :
    containsKey (p :: rest) id = if p.1 = id then true else containsKey rest id := by
  by_cases hp : p.1 = id <;> simp [containsKey, lookupA, hp]

theorem containsKey_insertA {α : Type} (l : List (String × α)) (k id : String) (v : α) :
    containsKey (insertA l k v) id = if k = id then true else containsKey l id := by
  by_cases hk : k = id
  · subst hk; simp [containsKey, lookupA_insertA_self]
  · simp [containsKey, lookupA_insertA_ne l k id v hk, hk]

theorem containsKey_eraseA {α : Type} (l : List (String × α)) (k id : String) :
    containsKey (eraseA l k) id = if k = id then false else containsKey l id := by
  by_cases hk : k = id
  · subst hk; simp [containsKey, lookupA_eraseA_self]
  · simp [containsKey, lookupA_eraseA_ne l k id hk, hk]

theorem containsKey_updateA {α : Type} (l : List (String × α)) (k : String) (f : α → α)
    (id : String) : containsKey (updateA l k f) id = containsKey l id := by
  by_cases hk : k = id <;> simp [containsKey, lookupA_updateA, hk]

/-! ### Media-list lemmas -/

theorem firstTrackOfKind_kind (l : List MediaStreamTrack) (k : String)
    (t : MediaStreamTrack) (h : firstTrackOfKind l k = some t) : t.kind = k := by
  induction l with
  | nil => exact absurd h (by simp [firstTrackOfKind])
  | cons u rest ih =>
      by_cases hu : u.kind = k
      · simp [firstTrackOfKind, hu] at h
        rw [← h]; exact hu
      · simp [firstTrackOfKind, hu] at h
        exact ih h

theorem firstTrackOfKind_setEnabledFirst (l : List MediaStreamTrack) (k : String) (e : Bool)
    (t : MediaStreamTrack) (h : firstTrackOfKind l k = some t) :
    firstTrackOfKind (setEnabledFirst l k e) k = some { t with enabled := e } := by
  induction l with
  | nil => exact absurd h (by simp [firstTrackOfKind])
  | cons u rest ih =>
      by_cases hu : u.kind = k
      · simp [firstTrackOfKind, hu] at h
        simp [setEnabledFirst, firstTrackOfKind, hu, ← h]
      · simp [firstTrackOfKind, hu] at h
        simp [setEnabledFirst, firstTrackOfKind, hu, ih h]

theorem replaceSenderTrack_first_same (k : String) (t : MediaStreamTrack)
    (sl : List RTPSender) (hk : t.kind = k)
    (hs : (firstSenderTrackOfKind k sl).isSome = true) :
    firstSenderTrackOfKind k (replaceSenderTrack k (some t) sl) = some t := by
  induction sl with
  | nil => simp [firstSenderTrackOfKind] at hs
  | cons sd rest ih =>
      cases htr : sd.track with
      | none =>
          simp [firstSenderTrackOfKind, htr] at hs
          simp [replaceSenderTrack, firstSenderTrackOfKind, htr, ih hs]
      | some u =>
          by_cases hu : u.kind = k
          · simp [replaceSenderTrack, firstSenderTrackOfKind, htr, hu, hk]
          · simp [firstSenderTrackOfKind, htr, hu] at hs
            simp [replaceSenderTrack, firstSenderTrackOfKind, htr, hu, ih hs]

theorem replaceSenderTrack_first_other (k k2 : String) (x : Option MediaStreamTrack)
    (sl : List RTPSender) (hne : k ≠ k2) (hx : optTrackKind x ≠ some k2) :
    firstSenderTrackOfKind k2 (replaceSenderTrack k x sl) =
      firstSenderTrackOfKind k2 sl := by
  induction sl with
  | nil => rfl
  | cons sd rest ih =>
      have hn2 : ¬ k2 = k := fun h => hne h.symm
      cases htr : sd.track with
      | none => simp [replaceSenderTrack, firstSenderTrackOfKind, htr, ih]
      | some u =>
          by_cases hu : u.kind = k
          · have hu2 : ¬ u.kind = k2 := by rw [hu]; exact hne
            cases hxc : x with
            | none =>
                simp [replaceSenderTrack, firstSenderTrackOfKind, htr, hu, hu2, hxc, hne]
            | some w =>
                have hw : ¬ w.kind = k2 := by
                  intro hwk
                  exact hx (by simp [optTrackKind, hxc, hwk])
                simp [replaceSenderTrack, firstSenderTrackOfKind, htr, hu, hu2, hxc, hw, hne]
          · by_cases hu2 : u.kind = k2
            · simp [replaceSenderTrack, firstSenderTrackOfKind, htr, hu, hu2, hn2]
            · simp [replaceSenderTrack, firstSenderTrackOfKind, htr, hu, hu2, ih]

/-! ### Lemmas about the `room_joined` fan-out `createForAll` -/

theorem createPeerConnection_true (s : AppState) (id : String) :
    createPeerConnection s id true =
      ({ s with peerConnections := insertA s.peerConnections id (callerPC s.localStream) },
       [ClientEvent.webrtcOffer id createOfferSdp]) := rfl

theorem createForAll_localStream (parts : List (String × Participant))
    (acc : AppState × List ClientEvent) :
    (createForAll acc parts).1.localStream = acc.1.localStream := by
  induction parts generalizing acc with
  | nil => rfl
  | cons p rest ih => simpa [createForAll, createPeerConnection] using ih _

theorem createForAll_participants (parts : List (String × Participant))
    (acc : AppState × List ClientEvent) :
    (createForAll acc parts).1.participants = acc.1.participants := by
  induction parts generalizing acc with
  | nil => rfl
  | cons p rest ih => simpa [createForAll, createPeerConnection] using ih _

theorem createForAll_isInRoom (parts : List (String × Participant))
    (acc : AppState × List ClientEvent) :
    (createForAll acc parts).1.isInRoom = acc.1.isInRoom := by
  induction parts generalizing acc with
  | nil => rfl
  | cons p rest ih => simpa [createForAll, createPeerConnection] using ih _

theorem createForAll_lookup_absent (parts : List (String × Participant))
    (acc : AppState × List ClientEvent) (id : String)
    (h : containsKey parts id = false) :
    lookupA (createForAll acc parts).1.peerConnections id =
      lookupA acc.1.peerConnections id := by
  induction parts generalizing acc with
  | nil => rfl
  | cons p rest ih =>
      rw [containsKey_cons] at h
      by_cases hp : p.1 = id
      · simp [hp] at h
      · simp only [hp, if_false] at h
        rw [createForAll, ih _ h]
        simp [createPeerConnection, lookupA_insertA_ne _ _ _ _ hp]

theorem createForAll_lookup_present (parts : List (String × Participant))
    (acc : AppState × List ClientEvent) (id : String)
    (h : containsKey parts id = true) :
    lookupA (createForAll acc parts).1.peerConnections id =
      some (callerPC acc.1.localStream) := by
  induction parts generalizing acc with
  | nil => simp [containsKey, lookupA] at h
  | cons p rest ih =>
      by_cases hr : containsKey rest id = true
      · rw [createForAll, ih _ hr]
        simp [createPeerConnection]
      · rw [containsKey_cons] at h
        have hp : p.1 = id := by
          by_cases hp : p.1 = id
          · exact hp
          · simp [hp] at h; exact absurd h hr
        have hr2 : containsKey rest id = false := by
          cases hcr : containsKey rest id
          · rfl
          · exact absurd hcr hr
        rw [createForAll, createForAll_lookup_absent rest _ id hr2]
        simp [createPeerConnection, hp, lookupA_insertA_self]

theorem createForAll_events_mono (parts : List (String × Participant))
    (acc : AppState × List ClientEvent) (e : ClientEvent) (h : e ∈ acc.2) :
    e ∈ (createForAll acc parts).2 := by
  induction parts generalizing acc with
  | nil => exact h
  | cons p rest ih =>
      rw [createForAll]
      exact ih _ (List.mem_append_left _ h)

theorem createForAll_offer_emitted (parts : List (String × Participant))
    (acc : AppState × List ClientEvent) (id : String)
    (h : containsKey parts id = true) :
    ClientEvent.webrtcOffer id createOfferSdp ∈ (createForAll acc parts).2 := by
  induction parts generalizing acc with
  | nil => simp [containsKey, lookupA] at h
  | cons p rest ih =>
      by_cases hp : p.1 = id
      · rw [createForAll]
        apply createForAll_events_mono
        subst hp
        simp [createPeerConnection]
      · rw [containsKey_cons] at h
        simp only [hp, if_false] at h
        rw [createForAll]
        exact ih _ h

theorem createForAll_containsKey (parts : List (String × Participant))
    (acc : AppState × List ClientEvent) (id : String) :
    containsKey (createForAll acc parts).1.peerConnections id =
      (containsKey parts id || containsKey acc.1.peerConnections id) := by
  induction parts generalizing acc with
  | nil => simp [createForAll, containsKey, lookupA]
  | cons p rest ih =>
      rw [createForAll, ih, containsKey_cons]
      by_cases hp : p.1 = id
      · simp [createPeerConnection, containsKey_insertA, hp]
      · simp [createPeerConnection, containsKey_insertA, hp]

/-! ### Concrete states used to instantiate the theorems -/

/-- A camera video track. -/
def camVideoTrack : MediaStreamTrack := { kind := "video", enabled := true, tid := 1 }

/-- A camera (microphone) audio track. -/
def camAudioTrack : MediaStreamTrack := { kind := "audio", enabled := true, tid := 2 }

/-- A camera stream with video and audio. -/
def camStreamD : MediaStream := { tracks := [camVideoTrack, camAudioTrack] }

/-- A screen-capture video track, distinct from the camera's. -/
def screenVideoTrack : MediaStreamTrack := { kind := "video", enabled := true, tid := 3 }

/-- A system-audio track of a screen capture. -/
def screenAudioTrack : MediaStreamTrack := { kind := "audio", enabled := true, tid := 4 }

/-- A screen-capture stream with system audio. -/
def screenStreamD : MediaStream := { tracks := [screenVideoTrack, screenAudioTrack] }

/-- A participant entry. -/
def demoParticipantA : Participant :=
  { name := "alice", video_enabled := true, audio_enabled := true }

/-- A sample remote offer. -/
def demoOfferA : SessionDescription := { sdpType := "offer", sdp := 5 }

/-- A second, distinct remote offer. -/
def demoOfferB : SessionDescription := { sdpType := "offer", sdp := 6 }

/-- A callee-side connection still waiting for the remote offer: no remote
description has been set yet. -/
def awaitingOfferState : AppState :=
  { initState with peerConnections := [("a", newRTCPeerConnection none)] }

/-- A connection whose negotiation completed: both descriptions set. -/
def connectedPC : RTCPeerConnection :=
  { newRTCPeerConnection none with
      localDescription := some createAnswerSdp,
      remoteDescription := some demoOfferA }

/-- A state with one fully negotiated peer connection for `"a"`. -/
def connectedState : AppState :=
  { initState with peerConnections := [("a", connectedPC)] }

/-- A state with local camera media running. -/
def inCallState : AppState := { initState with localStream := some camStreamD }

/-- A fresh connection created while the camera stream was live: one sender
per camera track. -/
def demoPC : RTCPeerConnection := newRTCPeerConnection (some camStreamD)

/-- A state with camera media and an active peer connection for `"a"`. -/
def meshState : AppState :=
  { initState with localStream := some camStreamD, peerConnections := [("a", demoPC)] }

/-! ### C7 -/

/-- C7: teardown is idempotent — for any state and participant id, a second
invocation of `cleanupPeerConnection` leaves the state (peer-connection
map, remote-stream map, and every other field) exactly as after the first,
and being a total function it never throws. -/
theorem c7_teardown_idempotent (s : AppState) (pid : String) :
    cleanupPeerConnection (cleanupPeerConnection s pid) pid = cleanupPeerConnection s pid := by
  unfold cleanupPeerConnection
  cases h : lookupA s.peerConnections pid with
  | none => simp [h, eraseA_eraseA]
  | some pc => simp [h, lookupA_eraseA_self, eraseA_eraseA]

/-! ### C9 -/

/-- C9: a `webrtc_ice_candidate` for an id with no active peer connection
is silently dropped — `handleIceCandidate` returns the state unchanged,
emits nothing, and raises no error. -/
theorem c9_stale_candidate_dropped (s : AppState) (fromId : String) (c : Candidate)
    (h : lookupA s.peerConnections fromId = none) :
    handleIceCandidate s fromId c = (s, [], true) := by
  simp [handleIceCandidate, h]

/-- C9 witness: a candidate for the unknown id `"z"` in the initial state. -/
theorem c9_witness : handleIceCandidate initState "z" 3 = (initState, [], true) :=
  c9_stale_candidate_dropped initState "z" 3 rfl

/-! ### C3 -/

/-- C3: role assignment is event-determined.  On `room_joined`, every id in
the received participant map gets a connection whose local description is
the freshly created offer (type `"offer"`), and a `webrtc_offer` addressed
to that id is emitted (Caller role, `shouldCreateOffer = true`).  On
`user_joined`, the new id gets a connection with no local description and
no event at all is emitted (Callee role, `shouldCreateOffer = false`),
while the participant map gains the newcomer. -/
theorem c3_role_assignment :
    (∀ s parts media id, containsKey parts id = true →
       ∃ pc, lookupA (onRoomJoined s parts media).1.peerConnections id = some pc ∧
         pc.localDescription = some createOfferSdp ∧
         createOfferSdp.sdpType = "offer" ∧
         ClientEvent.webrtcOffer id createOfferSdp ∈ (onRoomJoined s parts media).2) ∧
    (∀ s uid uname,
       ∃ pc, lookupA (onUserJoined s uid uname).1.peerConnections uid = some pc ∧
         pc.localDescription = none ∧
         (onUserJoined s uid uname).2 = [] ∧
         containsKey (onUserJoined s uid uname).1.participants uid = true) := by
  constructor
  · intro s parts media id h
    refine ⟨callerPC (startLocalMedia { s with isInRoom := true, participants := parts }
        media).localStream, ?_, rfl, rfl, ?_⟩
    · simp only [onRoomJoined]
      exact createForAll_lookup_present parts _ id h
    · simp only [onRoomJoined]
      exact createForAll_offer_emitted parts _ id h
  · intro s uid uname
    refine ⟨newRTCPeerConnection s.localStream, ?_, rfl, rfl, ?_⟩
    · simp [onUserJoined, createPeerConnection, lookupA_insertA_self]
    · simp [onUserJoined, createPeerConnection, containsKey_insertA]

/-- C3 witness: joining a room that already contains `"a"` produces a
caller connection with the offer set locally and a `webrtc_offer` sent to
`"a"`; a later `user_joined` for `"b"` emits nothing. -/
theorem c3_witness :
    (lookupA (onRoomJoined initState [("a", demoParticipantA)] none).1.peerConnections "a").map
        RTCPeerConnection.localDescription = some (some createOfferSdp) ∧
    ClientEvent.webrtcOffer "a" createOfferSdp ∈
      (onRoomJoined initState [("a", demoParticipantA)] none).2 ∧
    (onUserJoined initState "b" "bob").2 = [] := by
  obtain ⟨pc, hl, hd, _, hm⟩ :=
    c3_role_assignment.1 initState [("a", demoParticipantA)] none "a" (by decide)
  obtain ⟨pc2, _, _, he, _⟩ := c3_role_assignment.2 initState "b" "bob"
  exact ⟨by rw [hl]; simp [hd], hm, he⟩

/-! ### C2 -/

theorem startLocalMedia_participants (s : AppState) (m : Option MediaStream) :
    (startLocalMedia s m).participants = s.participants := by
  cases m <;> rfl

theorem startLocalMedia_peerConnections (s : AppState) (m : Option MediaStream) :
    (startLocalMedia s m).peerConnections = s.peerConnections := by
  cases m <;> rfl

theorem startLocalMedia_isInRoom (s : AppState) (m : Option MediaStream) :
    (startLocalMedia s m).isInRoom = s.isInRoom := by
  cases m <;> rfl

/-- One membership event (`user_joined` / `user_left`) preserves the
equality of the participant-id domain and the peer-connection domain. -/
theorem membershipEvent_sameDomain (s : AppState) (e : ServerEvent)
    (he : isMembershipEvent e = true) (hs : sameDomain s) :
    sameDomain (applyEvent s e).1 := by
  cases e with
  | userJoined uid uname =>
      intro id
      simp only [applyEvent, onUserJoined, createPeerConnection, if_neg Bool.false_ne_true]
      simp only [containsKey_insertA]
      by_cases h : uid = id <;> simp [h, hs id]
  | userLeft uid =>
      intro id
      simp only [applyEvent, onUserLeft, cleanupPeerConnection]
      cases h : lookupA s.peerConnections uid with
      | some pc =>
          simp only [h]
          simp only [containsKey_eraseA]
          by_cases hid : uid = id <;> simp [hid, hs id]
      | none =>
          simp only [h]
          simp only [containsKey_eraseA]
          by_cases hid : uid = id
          · subst hid
            simp [containsKey, h]
          · simp [hid, hs id]
  | roomJoined parts media => simp [isMembershipEvent] at he
  | offerReceived fid off => simp [isMembershipEvent] at he
  | answerReceived fid ans => simp [isMembershipEvent] at he
  | candidateReceived fid c => simp [isMembershipEvent] at he

/-- C2 counterexample: the claim quantifies over every sequence of
`room_joined` / `user_joined` / `user_left` events, but a `room_joined`
processed after a peer connection already exists replaces the participant
map while the old connection survives.  After
`[user_joined "a", room_joined (empty map)]` the id `"a"` has a peer
connection but is not a known participant. -/
theorem c2_claim_counterexample :
    containsKey (processEvents initState
        [ServerEvent.userJoined "a" "x", ServerEvent.roomJoined [] none]).peerConnections "a"
      = true ∧
    containsKey (processEvents initState
        [ServerEvent.userJoined "a" "x", ServerEvent.roomJoined [] none]).participants "a"
      = false := by
  decide

/-- C2 (amended): for every sequence of `user_joined` / `user_left` events
processed from a state whose participant-id and peer-connection domains
coincide, the domains coincide after each event; a `room_joined` processed
from a state with no peer connections (in particular the initial state)
also establishes the equality; `user_joined` adds both a participant entry
and a peer connection for the id, and `user_left` removes both. -/
theorem c2_membership_domain_equality :
    (∀ s evts, (∀ e ∈ evts, isMembershipEvent e = true) → sameDomain s →
       sameDomain (processEvents s evts)) ∧
    (∀ s parts media, s.peerConnections = [] →
       sameDomain (onRoomJoined s parts media).1) ∧
    (∀ s uid uname,
       containsKey (onUserJoined s uid uname).1.participants uid = true ∧
       containsKey (onUserJoined s uid uname).1.peerConnections uid = true) ∧
    (∀ s uid,
       containsKey (onUserLeft s uid).participants uid = false ∧
       containsKey (onUserLeft s uid).peerConnections uid = false) := by
  refine ⟨?_, ?_, ?_, ?_⟩
  · intro s evts
    induction evts generalizing s with
    | nil => intro _ hs; exact hs
    | cons e rest ih =>
        intro hall hs
        rw [processEvents]
        exact ih _ (fun x hx => hall x (List.mem_cons_of_mem e hx))
          (membershipEvent_sameDomain s e (hall e (List.mem_cons_self e rest)) hs)
  · intro s parts media hpc id
    simp only [onRoomJoined]
    rw [createForAll_containsKey, createForAll_participants]
    rw [startLocalMedia_participants, startLocalMedia_peerConnections]
    simp [hpc, containsKey_nil]
  · intro s uid uname
    constructor
    · simp [onUserJoined, createPeerConnection, containsKey_insertA]
    · simp [onUserJoined, createPeerConnection, containsKey_insertA]
  · intro s uid
    constructor
    · simp only [onUserLeft, cleanupPeerConnection]
      cases h : lookupA s.peerConnections uid with
      | some pc => simp [h, containsKey_eraseA]
      | none => simp [h, containsKey_eraseA]
    · simp only [onUserLeft, cleanupPeerConnection]
      cases h : lookupA s.peerConnections uid with
      | some pc => simp [h, containsKey_eraseA]
      | none => simp [h, containsKey, lookupA_eraseA_self]

/-- C2 witness: the join-then-leave sequence for `"a"` keeps the two
domains equal (checked at id `"a"`). -/
theorem c2_amended_witness :
    containsKey (processEvents initState
        [ServerEvent.userJoined "a" "x", ServerEvent.userLeft "a"]).participants "a" =
      containsKey (processEvents initState
        [ServerEvent.userJoined "a" "x", ServerEvent.userLeft "a"]).peerConnections "a" :=
  c2_membership_domain_equality.1 initState
    [ServerEvent.userJoined "a" "x", ServerEvent.userLeft "a"]
    (by decide) (fun _ => rfl) "a"

/-! ### C5 -/

/-- C5 counterexample: `"a"` already has an active, fully negotiated peer
link in `connectedState`, yet a further `webrtc_offer` from `"a"` is not
ignored — the handler answers it and overwrites the existing link's remote
description. -/
theorem c5_claim_counterexample :
    (handleOffer connectedState "a" demoOfferB).2 =
      [ClientEvent.webrtcAnswer "a" createAnswerSdp] ∧
    (lookupA (handleOffer connectedState "a" demoOfferB).1.peerConnections "a").map
        RTCPeerConnection.remoteDescription = some (some demoOfferB) := by
  decide

/-- C5 (amended): `handleOffer` ignores an offer exactly when the id has
NO peer connection; an offer for an id with an existing link is processed
— the offer becomes the link's remote description and an answer is sent
back — so repeated offers renegotiate the existing link rather than being
rejected.  `handleOffer` never creates or removes a connection, so the
per-id uniqueness of links (the map is keyed by id) is preserved. -/
theorem c5_duplicate_offer_processed :
    (∀ s fid off, lookupA s.peerConnections fid = none →
       handleOffer s fid off = (s, [])) ∧
    (∀ s fid off pc, lookupA s.peerConnections fid = some pc →
       (handleOffer s fid off).2 = [ClientEvent.webrtcAnswer fid createAnswerSdp] ∧
       lookupA (handleOffer s fid off).1.peerConnections fid =
         some { pc with
                  remoteDescription := some off,
                  localDescription := some createAnswerSdp }) ∧
    (∀ s fid off id,
       containsKey (handleOffer s fid off).1.peerConnections id =
         containsKey s.peerConnections id) := by
  refine ⟨?_, ?_, ?_⟩
  · intro s fid off h
    simp [handleOffer, h]
  · intro s fid off pc h
    constructor
    · simp [handleOffer, h]
    · simp [handleOffer, h, lookupA_updateA_self]
  · intro s fid off id
    cases h : lookupA s.peerConnections fid with
    | some pc => simp [handleOffer, h, containsKey_updateA]
    | none => simp [handleOffer, h]

/-- C5 witness: an offer for the unknown id `"b"` is ignored, while an
offer for the connected id `"a"` is answered. -/
theorem c5_amended_witness :
    handleOffer initState "b" demoOfferB = (initState, []) ∧
    (handleOffer connectedState "a" demoOfferB).2 =
      [ClientEvent.webrtcAnswer "a" createAnswerSdp] :=
  ⟨c5_duplicate_offer_processed.1 initState "b" demoOfferB rfl,
   (c5_duplicate_offer_processed.2.1 connectedState "a" demoOfferB connectedPC (by decide)).1⟩

/-! ### C6 -/

/-- C6 counterexample: with `getUserMedia` refused (`media = none`), the
`room_joined` handler still marks the room joined, creates a peer
connection for the existing participant `"a"` and even sends it an offer,
with no local media — the join does not abort. -/
theorem c6_claim_counterexample :
    (onRoomJoined initState [("a", demoParticipantA)] none).1.isInRoom = true ∧
    containsKey
        (onRoomJoined initState [("a", demoParticipantA)] none).1.peerConnections "a" = true ∧
    (onRoomJoined initState [("a", demoParticipantA)] none).1.localStream = none ∧
    (onRoomJoined initState [("a", demoParticipantA)] none).2 =
      [ClientEvent.webrtcOffer "a" createOfferSdp] := by
  decide

/-- C6 (amended): when camera/microphone acquisition is refused during the
join flow, the error is only logged and the join proceeds — the client
ends in the joined-room state (`isInRoom = true`) with a peer connection
created for every existing participant and `localStream` left unchanged
(no media); no retry is attempted (the handler performs a single
acquisition). -/
theorem c6_acquisition_denied_join_continues :
    ∀ s parts,
      (onRoomJoined s parts none).1.isInRoom = true ∧
      (onRoomJoined s parts none).1.localStream = s.localStream ∧
      (∀ id, containsKey parts id = true →
         containsKey (onRoomJoined s parts none).1.peerConnections id = true) := by
  intro s parts
  refine ⟨?_, ?_, ?_⟩
  · simp only [onRoomJoined]
    rw [createForAll_isInRoom, startLocalMedia_isInRoom]
  · simp only [onRoomJoined]
    rw [createForAll_localStream]
    rfl
  · intro id h
    simp only [onRoomJoined]
    rw [createForAll_containsKey]
    simp [h]

/-- C6 witness: the denied-acquisition join with one existing participant. -/
theorem c6_amended_witness :
    (onRoomJoined initState [("a", demoParticipantA)] none).1.isInRoom = true ∧
    containsKey
        (onRoomJoined initState [("a", demoParticipantA)] none).1.peerConnections "a" = true :=
  ⟨(c6_acquisition_denied_join_continues initState [("a", demoParticipantA)]).1,
   (c6_acquisition_denied_join_continues initState [("a", demoParticipantA)]).2.2 "a" (by decide)⟩

/-! ### C1 -/

/-- C1 counterexample: for the callee link `"a"` (no remote description
yet), a `webrtc_ice_candidate` arriving before the offer is forwarded to
`addIceCandidate` at once and rejected (flag `false`); after `handleOffer`
sets the remote description, the link's applied-candidate list is still
empty — the early candidate was lost, not buffered and drained. -/
theorem c1_claim_counterexample :
    (handleIceCandidate awaitingOfferState "a" 7).2.2 = false ∧
    (lookupA (handleOffer (handleIceCandidate awaitingOfferState "a" 7).1 "a"
        demoOfferA).1.peerConnections "a").map
        RTCPeerConnection.appliedCandidates = some [] ∧
    (lookupA (handleOffer (handleIceCandidate awaitingOfferState "a" 7).1 "a"
        demoOfferA).1.peerConnections "a").map
        RTCPeerConnection.remoteDescription = some (some demoOfferA) := by
  decide

/-- C1 (amended): there is no candidate buffer.  `handleIceCandidate`
forwards every candidate for an id with an active connection straight to
`addIceCandidate`: when the connection has no remote description yet the
call fails and the candidate is lost (the connection and the state are
unchanged, nothing is emitted); when a remote description exists the
candidate is appended to the applied list in arrival order.
`handleOffer` sets the remote description without applying any previously
received candidate. -/
theorem c1_no_candidate_buffer :
    (∀ s fid c pc, lookupA s.peerConnections fid = some pc →
       pc.remoteDescription = none →
       (handleIceCandidate s fid c).2.2 = false ∧
       lookupA (handleIceCandidate s fid c).1.peerConnections fid = some pc ∧
       (handleIceCandidate s fid c).2.1 = []) ∧
    (∀ s fid c pc d, lookupA s.peerConnections fid = some pc →
       pc.remoteDescription = some d →
       (handleIceCandidate s fid c).2.2 = true ∧
       lookupA (handleIceCandidate s fid c).1.peerConnections fid =
         some { pc with appliedCandidates := pc.appliedCandidates ++ [c] }) ∧
    (∀ s fid off pc, lookupA s.peerConnections fid = some pc →
       (lookupA (handleOffer s fid off).1.peerConnections fid).map
           RTCPeerConnection.appliedCandidates = some pc.appliedCandidates) := by
  refine ⟨?_, ?_, ?_⟩
  · intro s fid c pc h hrd
    refine ⟨?_, ?_, ?_⟩
    · simp [handleIceCandidate, h, RTCPeerConnection.addIceCandidate, hrd]
    · simp [handleIceCandidate, h, RTCPeerConnection.addIceCandidate, hrd,
        lookupA_updateA_self]
    · simp [handleIceCandidate, h]
  · intro s fid c pc d h hrd
    constructor
    · simp [handleIceCandidate, h, RTCPeerConnection.addIceCandidate, hrd]
    · simp [handleIceCandidate, h, RTCPeerConnection.addIceCandidate, hrd,
        lookupA_updateA_self]
  · intro s fid off pc h
    simp [handleOffer, h, lookupA_updateA_self]

/-- C1 witness: the early candidate `7` for the link awaiting its offer is
rejected, while the same candidate for the negotiated link `"a"` is
appended to its applied list. -/
theorem c1_amended_witness :
    (handleIceCandidate awaitingOfferState "a" 7).2.2 = false ∧
    lookupA (handleIceCandidate connectedState "a" 7).1.peerConnections "a" =
      some { connectedPC with
               appliedCandidates := connectedPC.appliedCandidates ++ [7] } :=
  ⟨(c1_no_candidate_buffer.1 awaitingOfferState "a" 7 (newRTCPeerConnection none)
      (by decide) rfl).1,
   (c1_no_candidate_buffer.2.1 connectedState "a" 7 connectedPC demoOfferA
      (by decide) rfl).2⟩

/-! ### C8 -/

/-- A reachable state in which the local video track's `enabled` flag
disagrees with `isVideoEnabled`: starting from `inCallState`, toggle video
off (flag becomes `false`, camera track disabled), start a screen share,
then stop it.  `stopScreenShare` installs the freshly acquired camera
stream — whose tracks `getUserMedia` delivers enabled — without touching
`isVideoEnabled`, which stays `false`. -/
def desyncState : AppState :=
  (stopScreenShare
    (startScreenShare (toggleVideo inCallState).1 (some screenStreamD)).1
    (some camStreamD)).1

/-- C8 counterexample: in `desyncState` a local stream with a video track
exists (the reacquired camera stream, track enabled, `isVideoEnabled =
false`), yet `toggleVideo` does not flip the track's enabled flag — the
code sets it to `!isVideoEnabled = true`, which it already was, so the
flag is unchanged. -/
theorem c8_claim_counterexample :
    desyncState.isVideoEnabled = false ∧
    desyncState.localStream = some camStreamD ∧
    (firstTrackOfKind camStreamD.tracks "video").map MediaStreamTrack.enabled = some true ∧
    ((toggleVideo desyncState).1.localStream.map
        (fun st => (firstTrackOfKind st.tracks "video").map MediaStreamTrack.enabled)) =
      some (some true) ∧
    (toggleVideo desyncState).2 = [ClientEvent.toggleVideoEvt true] := by
  decide

/-- C8 (amended): a local toggle, when a local stream with the
corresponding track exists, sets that track's enabled flag to the negation
of the stored `isVideoEnabled` / `isAudioEnabled` flag (a flip of the
track's own flag only when the two agree — not in general, since
`stopScreenShare` reinstalls enabled camera tracks without updating the
stored flags), updates the stored flag, emits exactly one `toggle_video` /
`toggle_audio` event (in particular no `webrtc_offer`, `webrtc_answer` or
`webrtc_ice_candidate`), and leaves the peer-connection map and the
remote-stream map untouched. -/
theorem c8_toggle_sets_flag :
    (∀ s stream vt, s.localStream = some stream →
       firstTrackOfKind stream.tracks "video" = some vt →
       (∃ stream2, (toggleVideo s).1.localStream = some stream2 ∧
          firstTrackOfKind stream2.tracks "video" =
            some { vt with enabled := ! s.isVideoEnabled }) ∧
       (toggleVideo s).1.isVideoEnabled = ! s.isVideoEnabled ∧
       (toggleVideo s).2 = [ClientEvent.toggleVideoEvt (! s.isVideoEnabled)] ∧
       (toggleVideo s).1.peerConnections = s.peerConnections ∧
       (toggleVideo s).1.remoteStreams = s.remoteStreams) ∧
    (∀ s stream au, s.localStream = some stream →
       firstTrackOfKind stream.tracks "audio" = some au →
       (∃ stream2, (toggleAudio s).1.localStream = some stream2 ∧
          firstTrackOfKind stream2.tracks "audio" =
            some { au with enabled := ! s.isAudioEnabled }) ∧
       (toggleAudio s).1.isAudioEnabled = ! s.isAudioEnabled ∧
       (toggleAudio s).2 = [ClientEvent.toggleAudioEvt (! s.isAudioEnabled)] ∧
       (toggleAudio s).1.peerConnections = s.peerConnections ∧
       (toggleAudio s).1.remoteStreams = s.remoteStreams) := by
  constructor
  · intro s stream vt hls hvt
    refine ⟨⟨{ tracks := setEnabledFirst stream.tracks "video" (! s.isVideoEnabled) }, ?_, ?_⟩,
        ?_, ?_, ?_, ?_⟩
    · simp [toggleVideo, hls, hvt]
    · exact firstTrackOfKind_setEnabledFirst stream.tracks "video" (! s.isVideoEnabled) vt hvt
    · simp [toggleVideo, hls, hvt]
    · simp [toggleVideo, hls, hvt]
    · simp [toggleVideo, hls, hvt]
    · simp [toggleVideo, hls, hvt]
  · intro s stream au hls hau
    refine ⟨⟨{ tracks := setEnabledFirst stream.tracks "audio" (! s.isAudioEnabled) }, ?_, ?_⟩,
        ?_, ?_, ?_, ?_⟩
    · simp [toggleAudio, hls, hau]
    · exact firstTrackOfKind_setEnabledFirst stream.tracks "audio" (! s.isAudioEnabled) au hau
    · simp [toggleAudio, hls, hau]
    · simp [toggleAudio, hls, hau]
    · simp [toggleAudio, hls, hau]
    · simp [toggleAudio, hls, hau]

/-- C8 witness: the toggle in `inCallState` (flags in sync — a genuine
flip) and in `desyncState` (flags out of sync) both emit exactly one
toggle event, and the audio toggle leaves the peer-connection map
untouched. -/
theorem c8_amended_witness :
    (toggleVideo inCallState).2 =
      [ClientEvent.toggleVideoEvt (! inCallState.isVideoEnabled)] ∧
    (toggleVideo desyncState).2 =
      [ClientEvent.toggleVideoEvt (! desyncState.isVideoEnabled)] ∧
    (toggleAudio inCallState).1.peerConnections = inCallState.peerConnections :=
  ⟨(c8_toggle_sets_flag.1 inCallState camStreamD camVideoTrack rfl (by decide)).2.2.1,
   (c8_toggle_sets_flag.1 desyncState camStreamD camVideoTrack (by decide) (by decide)).2.2.1,
   (c8_toggle_sets_flag.2 inCallState camStreamD camAudioTrack rfl (by decide)).2.2.2.1⟩

/-! ### C10 -/

/-- C10: `startScreenShare` never writes `localStream` — after it,
`localStream` is still the camera stream, so a toggle performed while
screen sharing flips the camera stream's track (and leaves every peer
connection, which now sends the screen tracks, untouched) — while
`stopScreenShare` does replace `localStream` with the newly acquired
camera stream. -/
theorem c10_screen_share_local_stream :
    ∀ s screen cam,
      (startScreenShare s (some screen)).1.localStream = s.localStream ∧
      (stopScreenShare s (some cam)).1.localStream = some cam ∧
      (∀ stream vt, s.localStream = some stream →
         firstTrackOfKind stream.tracks "video" = some vt →
         (∃ stream2,
            (toggleVideo (startScreenShare s (some screen)).1).1.localStream = some stream2 ∧
            firstTrackOfKind stream2.tracks "video" =
              some { vt with enabled := ! s.isVideoEnabled }) ∧
         (toggleVideo (startScreenShare s (some screen)).1).1.peerConnections =
           (startScreenShare s (some screen)).1.peerConnections) := by
  intro s screen cam
  refine ⟨rfl, rfl, ?_⟩
  intro stream vt hls hvt
  refine ⟨⟨{ tracks := setEnabledFirst stream.tracks "video" (! s.isVideoEnabled) }, ?_, ?_⟩, ?_⟩
  · simp [startScreenShare, toggleVideo, hls, hvt]
  · exact firstTrackOfKind_setEnabledFirst stream.tracks "video" (! s.isVideoEnabled) vt hvt
  · simp [startScreenShare, toggleVideo, hls, hvt]

/-- C10 witness: screen share from `inCallState` leaves `localStream`
untouched, stopping restores the camera stream, and a toggle during the
share does not modify the peer-connection map. -/
theorem c10_witness :
    (startScreenShare inCallState (some screenStreamD)).1.localStream =
      inCallState.localStream ∧
    (stopScreenShare inCallState (some camStreamD)).1.localStream = some camStreamD ∧
    (toggleVideo (startScreenShare inCallState (some screenStreamD)).1).1.peerConnections =
      (startScreenShare inCallState (some screenStreamD)).1.peerConnections :=
  ⟨(c10_screen_share_local_stream inCallState screenStreamD camStreamD).1,
   (c10_screen_share_local_stream inCallState screenStreamD camStreamD).2.1,
   ((c10_screen_share_local_stream inCallState screenStreamD camStreamD).2.2
      camStreamD camVideoTrack rfl (by decide)).2⟩

/-! ### C4 -/

theorem firstVideo_after_both (sl : List RTPSender) (vt : MediaStreamTrack)
    (x : Option MediaStreamTrack) (hvk : vt.kind = "video")
    (hx : optTrackKind x ≠ some "video")
    (hs : (firstSenderTrackOfKind "video" sl).isSome = true) :
    firstSenderTrackOfKind "video"
      (replaceSenderTrack "audio" x (replaceSenderTrack "video" (some vt) sl)) = some vt := by
  rw [replaceSenderTrack_first_other "audio" "video" x _ (by decide) hx]
  exact replaceSenderTrack_first_same "video" vt sl hvk hs

theorem firstAudio_after_both (sl : List RTPSender) (au : MediaStreamTrack)
    (x : Option MediaStreamTrack) (hak : au.kind = "audio")
    (hx : optTrackKind x ≠ some "audio")
    (hs : (firstSenderTrackOfKind "audio" sl).isSome = true) :
    firstSenderTrackOfKind "audio"
      (replaceSenderTrack "audio" (some au) (replaceSenderTrack "video" x sl)) = some au := by
  apply replaceSenderTrack_first_same "audio" au _ hak
  rw [replaceSenderTrack_first_other "video" "audio" x sl (by decide) hx]
  exact hs

theorem optTrackKind_first_ne (tracks : List MediaStreamTrack) (k other : String)
    (hko : ¬ k = other) : optTrackKind (firstTrackOfKind tracks k) ≠ some other := by
  cases hv : firstTrackOfKind tracks k with
  | none => simp [optTrackKind]
  | some w =>
      simp only [optTrackKind, firstTrackOfKind_kind tracks k w hv, ne_eq,
        Option.some.injEq]
      exact hko

/-- C4: switching the local media source (`startScreenShare` /
`stopScreenShare`, on successful acquisition) swaps the outgoing video
track — and the audio track when the new source has one — on every active
peer connection via `replaceTrack`, emits exactly the screen-share
notification (no `webrtc_offer` and no `webrtc_answer`), and leaves every
connection's negotiation state (local description, remote description,
applied candidates) unchanged. -/
theorem c4_replace_without_renegotiation :
    ∀ s stream pid pc, lookupA s.peerConnections pid = some pc →
      ((startScreenShare s (some stream)).2 = [ClientEvent.startScreenShareEvt] ∧
       ∃ pc2, lookupA (startScreenShare s (some stream)).1.peerConnections pid = some pc2 ∧
         pc2.localDescription = pc.localDescription ∧
         pc2.remoteDescription = pc.remoteDescription ∧
         pc2.appliedCandidates = pc.appliedCandidates ∧
         (∀ vt, firstTrackOfKind stream.tracks "video" = some vt →
            hasSenderOfKind "video" pc.senders = true →
            firstSenderTrackOfKind "video" pc2.senders = some vt) ∧
         (∀ au, firstTrackOfKind stream.tracks "audio" = some au →
            hasSenderOfKind "audio" pc.senders = true →
            firstSenderTrackOfKind "audio" pc2.senders = some au)) ∧
      ((stopScreenShare s (some stream)).2 = [ClientEvent.stopScreenShareEvt] ∧
       ∃ pc2, lookupA (stopScreenShare s (some stream)).1.peerConnections pid = some pc2 ∧
         pc2.localDescription = pc.localDescription ∧
         pc2.remoteDescription = pc.remoteDescription ∧
         pc2.appliedCandidates = pc.appliedCandidates ∧
         (∀ vt, firstTrackOfKind stream.tracks "video" = some vt →
            hasSenderOfKind "video" pc.senders = true →
            firstSenderTrackOfKind "video" pc2.senders = some vt) ∧
         (∀ au, firstTrackOfKind stream.tracks "audio" = some au →
            hasSenderOfKind "audio" pc.senders = true →
            firstSenderTrackOfKind "audio" pc2.senders = some au)) := by
  intro s stream pid pc h
  constructor
  · refine ⟨rfl, ⟨replaceTracksStart (firstTrackOfKind stream.tracks "video")
        (firstTrackOfKind stream.tracks "audio") pc, ?_, rfl, rfl, rfl, ?_, ?_⟩⟩
    · simp only [startScreenShare]
      rw [lookupA_mapValuesA, h]
      rfl
    · intro vt hvt hvs
      simp only [hasSenderOfKind] at hvs
      have hvk := firstTrackOfKind_kind stream.tracks "video" vt hvt
      simp only [replaceTracksStart, hvt]
      cases hau : firstTrackOfKind stream.tracks "audio" with
      | none => exact replaceSenderTrack_first_same "video" vt pc.senders hvk hvs
      | some au2 =>
          have hx : optTrackKind (some au2) ≠ some "video" := by
            simp only [optTrackKind, firstTrackOfKind_kind stream.tracks "audio" au2 hau,
              ne_eq, Option.some.injEq]
            decide
          exact firstVideo_after_both pc.senders vt (some au2) hvk hx hvs
    · intro au hau has
      simp only [hasSenderOfKind] at has
      have hak := firstTrackOfKind_kind stream.tracks "audio" au hau
      have hx : optTrackKind (firstTrackOfKind stream.tracks "video") ≠ some "audio" :=
        optTrackKind_first_ne stream.tracks "video" "audio" (by decide)
      simp only [replaceTracksStart, hau]
      exact firstAudio_after_both pc.senders au
        (firstTrackOfKind stream.tracks "video") hak hx has
  · refine ⟨rfl, ⟨replaceTracksStop (firstTrackOfKind stream.tracks "video")
        (firstTrackOfKind stream.tracks "audio") pc, ?_, rfl, rfl, rfl, ?_, ?_⟩⟩
    · simp only [stopScreenShare]
      rw [lookupA_mapValuesA, h]
      rfl
    · intro vt hvt hvs
      simp only [hasSenderOfKind] at hvs
      have hvk := firstTrackOfKind_kind stream.tracks "video" vt hvt
      have hx : optTrackKind (firstTrackOfKind stream.tracks "audio") ≠ some "video" :=
        optTrackKind_first_ne stream.tracks "audio" "video" (by decide)
      simp only [replaceTracksStop, hvt]
      exact firstVideo_after_both pc.senders vt
        (firstTrackOfKind stream.tracks "audio") hvk hx hvs
    · intro au hau has
      simp only [hasSenderOfKind] at has
      have hak := firstTrackOfKind_kind stream.tracks "audio" au hau
      have hx : optTrackKind (firstTrackOfKind stream.tracks "video") ≠ some "audio" :=
        optTrackKind_first_ne stream.tracks "video" "audio" (by decide)
      simp only [replaceTracksStop, hau]
      exact firstAudio_after_both pc.senders au
        (firstTrackOfKind stream.tracks "video") hak hx has

/-- C4 witness: sharing the screen from `meshState` emits only the
screen-share notification, keeps the connection's local description, and
swaps its outgoing video track to the screen track. -/
theorem c4_witness :
    (startScreenShare meshState (some screenStreamD)).2 =
      [ClientEvent.startScreenShareEvt] ∧
    (lookupA (startScreenShare meshState (some screenStreamD)).1.peerConnections "a").map
        RTCPeerConnection.localDescription = some demoPC.localDescription ∧
    (lookupA (startScreenShare meshState (some screenStreamD)).1.peerConnections "a").map
        (fun pc2 => firstSenderTrackOfKind "video" pc2.senders) =
      some (some screenVideoTrack) := by
  obtain ⟨⟨hev, pc2, hl, hld, _, _, hv, _⟩, _⟩ :=
    c4_replace_without_renegotiation meshState screenStreamD "a" demoPC (by decide)
  refine ⟨hev, ?_, ?_⟩
  · rw [hl]
    simp [hld]
  · rw [hl]
    simp [hv screenVideoTrack (by decide) (by decide)]
